import Mathlib

/-!
Shallow embedding of the feedback-driven itinerary store and
prompt-enhancement engine of the AI travel planner (`app.py`,
`SelfTrainingLLMSystem`).  The embedding follows the JSON storage path
(`use_database = False`): the flat-file backend that is always present and
that the database path falls back to.  Python lists become Lean lists,
Python dicts (which preserve insertion order) become association lists,
Python ints become `Int`/`Nat`, and Python floats produced by the quality
score are modelled over `ℚ`.
-/

namespace TravelPlanner

/-- One stored itinerary record: the `itinerary_entry` dictionary built in
`SelfTrainingLLMSystem.store_complete_itinerary`.  The timestamp is omitted;
the legacy alias keys (`destination`, `duration`, `budget_level`,
`itinerary_text`) duplicate canonical fields in the JSON document and are
represented once each. -/
structure Itinerary where
  id : Nat
  city : String
  tripDays : Nat
  budget : String
  interests : List String
  travelStyle : List String
  includeFood : Bool
  includeTransport : Bool
  fullPromptContext : String
  fullItinerary : String
  itineraryLength : Nat
  wordCount : Nat
  rated : Bool
  rating : Int
  feedbackComments : String
  qualityScore : ℚ
  usedForTraining : Bool
  trainingIteration : Nat
deriving DecidableEq

/-- One append-only feedback log entry (`feedback_entry` in
`record_feedback`); the timestamp is omitted. -/
structure Feedback where
  itineraryId : Nat
  rating : Int
  comments : String
deriving DecidableEq

/-- The compact summary built for five-star itineraries in `_auto_train`
(`prompt_summary`). -/
structure PromptSummary where
  city : String
  days : Nat
  budget : String
  rating : Int
  wordCount : Nat
deriving DecidableEq

/-- The mutable training-patterns document (`_generate_initial_patterns`
shape).  `highRatedCities` models the insertion-ordered Python dict
`successful_patterns.high_rated_cities`; the `last_update` timestamp and
the static sub-documents the auto-trainer never touches
(`popular_interests`, `optimal_trip_durations`, `budget_success_rates`,
`learned_prompt_enhancements`, `optimization_rules`) are omitted. -/
structure Patterns where
  trainingIterations : Nat
  totalTrainingSamples : Nat
  highRatedCities : List (String × Nat)
  qualityImprovementInsights : List String
  bestPerformingPrompts : List PromptSummary
deriving DecidableEq

/-- The whole persistent state of the JSON backend: the three flat files
`complete_itineraries.json`, `feedback.json`, `training_patterns.json`. -/
structure SysState where
  itineraries : List Itinerary
  feedback : List Feedback
  patterns : Patterns
deriving DecidableEq

/-- Python `text.title()` for ASCII input: a character after a non-alphabetic
character is uppercased, a character after an alphabetic one is lowercased. -/
def pyTitleAux : Bool → List Char → List Char
  | _, [] => []
  | prevAlpha, ch :: rest =>
    (if prevAlpha then ch.toLower else ch.toUpper) :: pyTitleAux ch.isAlpha rest

/-- Python `str.title()` as used on destination names. -/
def pyTitle (s : String) : String := ⟨pyTitleAux false s.data⟩

/-- Python `full_itinerary.split()` word count: split on whitespace runs and
drop empty pieces. -/
def pyWordCount (s : String) : Nat :=
  ((s.split fun c => c.isWhitespace).filter fun w => w ≠ "").length

/-- `sanitize_text_input`: empty text maps to the empty string, anything else
is stripped of surrounding whitespace and capped at `maxLength` characters. -/
def sanitizeTextInput (text : String) (maxLength : Nat) : String :=
  if text = "" then "" else text.trim.take maxLength

/-- Python `round(q, 2)` modelled over `ℚ` (round to two decimal places). -/
def round2 (q : ℚ) : ℚ := (round (q * 100) : ℤ) / 100

/-- `_calculate_quality_score`: `round(rating * 16 + min(20, length / 1000), 2)`. -/
def calcQualityScore (rating : Int) (length : Nat) : ℚ :=
  round2 ((rating : ℚ) * 16 + min 20 ((length : ℚ) / 1000))

/-- Python list slice `l[-limit:]` for a non-negative `limit`: the last
`limit` elements, except that `limit = 0` yields the whole list (Python
`l[-0:]` is `l[0:]`). -/
def pySliceFromNeg (l : List α) (limit : Nat) : List α :=
  if limit = 0 then l else l.drop (l.length - limit)

/-- `store_complete_itinerary`, with the outcome of the primary
(PostgreSQL) write abstracted as `primaryId` (`some i` when
`db_manager.create_itinerary` returned id `i`, `none` when the primary path
was disabled or raised).  Returns the new flat-file collection and the id
handed back to the caller. -/
def storeCompleteItinerary (itins : List Itinerary) (primaryId : Option Nat)
    (city : String) (tripDays : Nat) (budget : String)
    (interests : List String) (travelStyle : List String)
    (includeFood : Bool) (includeTransport : Bool)
    (fullPromptContext : String) (fullItinerary : String) :
    List Itinerary × Nat :=
  let itinId := match primaryId with
    | some i => i
    | none => itins.length + 1
  let entry : Itinerary :=
    { id := itinId
      city := city
      tripDays := tripDays
      budget := budget
      interests := interests
      travelStyle := travelStyle
      includeFood := includeFood
      includeTransport := includeTransport
      fullPromptContext := fullPromptContext
      fullItinerary := fullItinerary
      itineraryLength := fullItinerary.length
      wordCount := pyWordCount fullItinerary
      rated := false
      rating := 0
      feedbackComments := ""
      qualityScore := 0
      usedForTraining := false
      trainingIteration := 0 }
  (itins ++ [entry], itinId)

/-- The feedback update `record_feedback` applies to the matching record:
sets `rated`, stores the rating verbatim, stores the sanitized comments and
recomputes the quality score from the stored text's length. -/
def applyFeedback (r : Itinerary) (rating : Int) (comments : String) : Itinerary :=
  { r with
      rated := true
      rating := rating
      feedbackComments := comments
      qualityScore := calcQualityScore rating r.fullItinerary.length }

/-- The `for itin in itineraries: if itin.get('id') == itinerary_id: ...;
break` loop of `record_feedback`: update the first record whose id matches,
leave everything else alone. -/
def updateFirst (itins : List Itinerary) (itinId : Nat) (rating : Int)
    (comments : String) : List Itinerary :=
  match itins with
  | [] => []
  | r :: rs =>
    if r.id = itinId then applyFeedback r rating comments :: rs
    else r :: updateFirst rs itinId rating comments

/-- Insertion-ordered dict update `d[k] = d.get(k, 0) + 1`: bump the first
entry carrying the key, or append a fresh entry with count 1. -/
def bumpKey [DecidableEq α] (m : List (α × Nat)) (k : α) : List (α × Nat) :=
  match m with
  | [] => [(k, 1)]
  | p :: ps => if p.1 = k then (p.1, p.2 + 1) :: ps else p :: bumpKey ps k

/-- Build a counting dict (insertion-ordered, as a Python dict) from a list
of keys, starting from the empty dict. -/
def countDict [DecidableEq α] (xs : List α) : List (α × Nat) :=
  xs.foldl bumpKey []

/-- First-match dict lookup with default 0 (`d.get(k, 0)`). -/
def lookupCount [DecidableEq α] (m : List (α × Nat)) (k : α) : Nat :=
  match m with
  | [] => 0
  | p :: ps => if p.1 = k then p.2 else lookupCount ps k

/-- Python `l[-n:]` truncation used on the bounded pattern lists (the last
`n` elements; these call sites always pass a positive `n`). -/
def takeLast (n : Nat) (l : List α) : List α := l.drop (l.length - n)

/-- The fixed catalog of candidate insight sentences in
`_generate_training_insight`. -/
def insightCatalog : List String :=
  [ "Itineraries with exact time slots receive higher ratings"
  , "Including restaurant details improves satisfaction"
  , "Weather alternatives increase user satisfaction"
  , "Transport cost breakdowns are highly valued"
  , "Opening hours mentioned upfront reduce friction"
  , "Grouping nearby attractions saves time"
  , "Cultural tips enhance travel experience"
  , "Budget breakdowns help planning"
  , "Insider tips boost ratings significantly"
  , "Day-by-day structure is preferred format"
  , "Multi-option transport suggestions are valued"
  , "Photo spots increase engagement" ]

/-- `_generate_training_insight`: `random.choice` over the catalog, modelled
by an arbitrary index `pick` reduced modulo the catalog's size. -/
def generateTrainingInsight (pick : Nat) : String :=
  insightCatalog.getD (pick % insightCatalog.length) ""

/-- The insight-list step of `_auto_train`: append the candidate only when
it is not already present, then truncate to the most recent 15. -/
def addInsight (insights : List String) (candidate : String) : List String :=
  if candidate ∈ insights then insights
  else takeLast 15 (insights ++ [candidate])

/-- The best-prompts step of `_auto_train` for one five-star record: append
the summary when not already present, then truncate to the most recent 10. -/
def addBest (best : List PromptSummary) (s : PromptSummary) : List PromptSummary :=
  if s ∈ best then best else takeLast 10 (best ++ [s])

/-- The summary `_auto_train` builds for a five-star record. -/
def mkSummary (i : Itinerary) : PromptSummary :=
  { city := i.city
    days := i.tripDays
    budget := i.budget
    rating := i.rating
    wordCount := i.wordCount }

/-- The high-quality subset `_auto_train` selects:
`(i.get('rating') or 0) >= 4`. -/
def highQuality (itins : List Itinerary) : List Itinerary :=
  itins.filter fun i => 4 ≤ i.rating

/-- The marking step of `_auto_train`: a high-rated record not yet used for
training is stamped with the current iteration number. -/
def markUsed (iter : Nat) (i : Itinerary) : Itinerary :=
  if 4 ≤ i.rating ∧ ¬ i.usedForTraining then
    { i with usedForTraining := true, trainingIteration := iter }
  else i

/-- `_auto_train` on the JSON path, with the `random.choice` call modelled
by the index `pick`.  Returns the state unchanged when fewer than 3 records
exist or no record is high-rated; otherwise updates the patterns document
and marks the high-rated records. -/
def autoTrain (s : SysState) (pick : Nat) : SysState :=
  if s.itineraries.length < 3 then s
  else
    let hq := highQuality s.itineraries
    if hq.isEmpty then s
    else
      let p := s.patterns
      let cities := hq.foldl (fun m i => bumpKey m (pyTitle i.city)) p.highRatedCities
      let newInsight := generateTrainingInsight pick
      let insights :=
        if newInsight ≠ "" then addInsight p.qualityImprovementInsights newInsight
        else p.qualityImprovementInsights
      let best := hq.foldl
        (fun b i => if i.rating = 5 then addBest b (mkSummary i) else b)
        p.bestPerformingPrompts
      let iters := p.trainingIterations + 1
      { s with
          patterns :=
            { trainingIterations := iters
              totalTrainingSamples := hq.length
              highRatedCities := cities
              qualityImprovementInsights := insights
              bestPerformingPrompts := best }
          itineraries := s.itineraries.map (markUsed iters) }

/-- `record_feedback` on the JSON path: sanitize the comments, update the
first matching record, append a feedback log entry, and run `_auto_train`
exactly when the new feedback count is a multiple of 3.  The `random.choice`
inside a triggered auto-train pass is modelled by `pick`. -/
def recordFeedback (s : SysState) (itinId : Nat) (rating : Int)
    (comments : String) (pick : Nat) : SysState :=
  let comments := sanitizeTextInput comments 1000
  let itins := updateFirst s.itineraries itinId rating comments
  let fb := s.feedback ++ [{ itineraryId := itinId, rating := rating, comments := comments }]
  let s1 : SysState := { s with itineraries := itins, feedback := fb }
  if fb.length % 3 = 0 then autoTrain s1 pick else s1

/-- `get_recent_itineraries` on the JSON path:
`list(reversed(itineraries))[-limit:]`. -/
def getRecentItineraries (itins : List Itinerary) (limit : Nat) : List Itinerary :=
  pySliceFromNeg itins.reverse limit

/-- The relation ordering destination counts for `top_cities`:
`sorted(city_counts.items(), key=lambda x: x[1], reverse=True)` places `a`
no later than `b` exactly when `b`'s count is at most `a`'s. -/
def countGE (a b : String × Nat) : Prop := b.2 ≤ a.2

instance : DecidableRel countGE := fun a b => Nat.decLe b.2 a.2

instance : IsTotal (String × Nat) countGE :=
  ⟨fun a b => (Nat.le_total b.2 a.2).elim Or.inl Or.inr⟩

instance : IsTrans (String × Nat) countGE :=
  ⟨fun _ _ _ h1 h2 => Nat.le_trans h2 h1⟩

/-- Python's stable descending sort of the `(city, count)` pairs, as an
insertion sort (stability: an earlier pair precedes a later pair of equal
count). -/
def sortCountsDesc (l : List (String × Nat)) : List (String × Nat) :=
  l.insertionSort countGE

/-- The aggregate snapshot `get_statistics` returns on the JSON path
(`improvement_rate` is the constant 0 and is omitted). -/
structure Stats where
  totalItineraries : Nat
  totalFeedback : Nat
  ratedItineraries : Nat
  averageRating : ℚ
  trainingIterations : Nat
  highQualitySamples : Nat
  topCities : List (String × Nat)
  ratingDistribution : List (Int × Nat)
  avgWordCount : ℚ
deriving DecidableEq

/-- `get_statistics` on the JSON path: the empty record set yields the fixed
zero snapshot; otherwise averages, the rating histogram and the top-5
destination list are computed by scanning the records. -/
def getStatistics (s : SysState) : Stats :=
  if s.itineraries.isEmpty then
    { totalItineraries := 0
      totalFeedback := 0
      ratedItineraries := 0
      averageRating := 0
      trainingIterations := 0
      highQualitySamples := 0
      topCities := []
      ratingDistribution := []
      avgWordCount := 0 }
  else
    let itins := s.itineraries
    let rated := itins.filter fun i => i.rated ∧ 0 < i.rating
    let ratings := (rated.filter fun i => i.rating ≠ 0).map fun i => i.rating
    let cityCounts := countDict (itins.map fun i => pyTitle i.city)
    { totalItineraries := itins.length
      totalFeedback := s.feedback.length
      ratedItineraries := rated.length
      averageRating :=
        if ratings.isEmpty then 0
        else ((ratings.foldl (· + ·) 0 : ℤ) : ℚ) / (ratings.length : ℚ)
      trainingIterations := s.patterns.trainingIterations
      highQualitySamples := s.patterns.totalTrainingSamples
      topCities := (sortCountsDesc cityCounts).take 5
      ratingDistribution := countDict ratings
      avgWordCount := ((itins.foldl (fun a i => a + i.wordCount) 0 : Nat) : ℚ) / (itins.length : ℚ) }

/-- A concrete record used by the closed counterexample and witness
theorems below. -/
def sampleItinerary (id : Nat) (city : String) (rating : Int) (rated : Bool)
    (used : Bool) : Itinerary :=
  { id := id
    city := city
    tripDays := 3
    budget := "Moderate"
    interests := ["food"]
    travelStyle := ["Solo"]
    includeFood := true
    includeTransport := true
    fullPromptContext := ""
    fullItinerary := "plan"
    itineraryLength := 4
    wordCount := 1
    rated := rated
    rating := rating
    feedbackComments := ""
    qualityScore := 0
    usedForTraining := used
    trainingIteration := 0 }

/-- The empty patterns document (counters zero, all lists empty). -/
def emptyPatterns : Patterns :=
  { trainingIterations := 0
    totalTrainingSamples := 0
    highRatedCities := []
    qualityImprovementInsights := []
    bestPerformingPrompts := [] }

/-- One unrated record with id 1: the state of the rating-coercion
counterexample. -/
def oneRecordState : SysState :=
  { itineraries := [sampleItinerary 1 "paris" 0 false false]
    feedback := []
    patterns := emptyPatterns }

/-- Three records, the first high-rated but not yet used for training, and
two feedback entries already logged: the state of the missing-id
counterexample (the next submission triggers an auto-train pass). -/
def threeRecordState : SysState :=
  { itineraries :=
      [ sampleItinerary 1 "tokyo" 4 true false
      , sampleItinerary 2 "lima" 1 true false
      , sampleItinerary 3 "oslo" 0 false false ]
    feedback :=
      [ { itineraryId := 1, rating := 4, comments := "" }
      , { itineraryId := 2, rating := 1, comments := "" } ]
    patterns := emptyPatterns }

@[simp]
lemma markUsed_id (k : Nat) (i : Itinerary) : (markUsed k i).id = i.id := by
  unfold markUsed; split <;> rfl

@[simp]
lemma markUsed_rating (k : Nat) (i : Itinerary) : (markUsed k i).rating = i.rating := by
  unfold markUsed; split <;> rfl

@[simp]
lemma markUsed_rated (k : Nat) (i : Itinerary) : (markUsed k i).rated = i.rated := by
  unfold markUsed; split <;> rfl

@[simp]
lemma markUsed_qualityScore (k : Nat) (i : Itinerary) :
    (markUsed k i).qualityScore = i.qualityScore := by
  unfold markUsed; split <;> rfl

@[simp]
lemma markUsed_feedbackComments (k : Nat) (i : Itinerary) :
    (markUsed k i).feedbackComments = i.feedbackComments := by
  unfold markUsed; split <;> rfl

@[simp]
lemma markUsed_city (k : Nat) (i : Itinerary) : (markUsed k i).city = i.city := by
  unfold markUsed; split <;> rfl

/-- `_auto_train` either leaves the record list alone (early exit) or maps
the marking step over it. -/
lemma autoTrain_itineraries_shape (s : SysState) (pick : Nat) :
    (autoTrain s pick).itineraries = s.itineraries ∨
    ∃ k, (autoTrain s pick).itineraries = s.itineraries.map (markUsed k) := by
  unfold autoTrain
  dsimp only
  split
  · exact Or.inl rfl
  split
  · exact Or.inl rfl
  exact Or.inr ⟨_, rfl⟩

/-- `_auto_train` never touches the feedback log. -/
lemma autoTrain_feedback (s : SysState) (pick : Nat) :
    (autoTrain s pick).feedback = s.feedback := by
  unfold autoTrain
  dsimp only
  split
  · rfl
  split <;> rfl

/-- `_auto_train` preserves the number of records. -/
lemma autoTrain_itineraries_length (s : SysState) (pick : Nat) :
    (autoTrain s pick).itineraries.length = s.itineraries.length := by
  rcases autoTrain_itineraries_shape s pick with h | ⟨k, h⟩ <;> simp [h]

/-- When no record carries the requested id, the feedback-update loop is the
identity on the record list. -/
lemma updateFirst_of_not_mem (itins : List Itinerary) (itinId : Nat) (r : Int)
    (c : String) (h : itinId ∉ itins.map fun i => i.id) :
    updateFirst itins itinId r c = itins := by
  induction itins with
  | nil => rfl
  | cons x xs ih =>
    simp only [List.map_cons, List.mem_cons] at h
    push_neg at h
    unfold updateFirst
    rw [if_neg fun hx => h.1 hx.symm, ih h.2]

/-- The feedback-update loop preserves the number of records. -/
lemma updateFirst_length (itins : List Itinerary) (itinId : Nat) (r : Int)
    (c : String) : (updateFirst itins itinId r c).length = itins.length := by
  induction itins with
  | nil => rfl
  | cons x xs ih =>
    unfold updateFirst
    split <;> simp [ih]

/-- With distinct ids, rating a stored record puts exactly its updated copy
into the updated record list. -/
lemma applyFeedback_mem_updateFirst (itins : List Itinerary) (i : Itinerary)
    (r : Int) (c : String) (hnd : (itins.map fun j => j.id).Nodup)
    (hmem : i ∈ itins) :
    applyFeedback i r c ∈ updateFirst itins i.id r c := by
  induction itins with
  | nil => cases hmem
  | cons x xs ih =>
    simp only [List.map_cons, List.nodup_cons] at hnd
    unfold updateFirst
    by_cases hx : x.id = i.id
    · rw [if_pos hx]
      rcases List.mem_cons.mp hmem with h | h
      · rw [h]
        exact List.mem_cons_self _ _
      · exact absurd (hx ▸ List.mem_map_of_mem (fun j => j.id) h) hnd.1
    · rw [if_neg hx]
      rcases List.mem_cons.mp hmem with h | h
      · exact absurd (congrArg (fun j => j.id) h.symm) hx
      · exact List.mem_cons_of_mem _ (ih hnd.2 h)

/-- `record_feedback` written as one conditional over the explicit updated
state. -/
lemma recordFeedback_eq (s : SysState) (itinId : Nat) (r : Int) (c : String)
    (pick : Nat) :
    recordFeedback s itinId r c pick =
      if (s.feedback.length + 1) % 3 = 0 then
        autoTrain
          { s with
              itineraries := updateFirst s.itineraries itinId r (sanitizeTextInput c 1000)
              feedback := s.feedback ++
                [{ itineraryId := itinId, rating := r, comments := sanitizeTextInput c 1000 }] }
          pick
      else
        { s with
            itineraries := updateFirst s.itineraries itinId r (sanitizeTextInput c 1000)
            feedback := s.feedback ++
              [{ itineraryId := itinId, rating := r, comments := sanitizeTextInput c 1000 }] } := by
  unfold recordFeedback
  simp

/-- Any record of the updated list survives `record_feedback` with its id,
rated flag, rating and quality score intact (a triggered auto-train pass can
only flip training flags). -/
lemma recordFeedback_exists_core (s : SysState) (itinId : Nat) (r : Int)
    (c : String) (pick : Nat) (x : Itinerary)
    (hx : x ∈ updateFirst s.itineraries itinId r (sanitizeTextInput c 1000)) :
    ∃ y ∈ (recordFeedback s itinId r c pick).itineraries,
      y.id = x.id ∧ y.rated = x.rated ∧ y.rating = x.rating ∧
      y.qualityScore = x.qualityScore := by
  rw [recordFeedback_eq]
  split
  · rcases autoTrain_itineraries_shape _ pick with h | ⟨k, h⟩
    · rw [h]
      exact ⟨x, hx, rfl, rfl, rfl, rfl⟩
    · rw [h]
      exact ⟨markUsed k x, List.mem_map_of_mem _ hx, by simp, by simp, by simp, by simp⟩
  · exact ⟨x, hx, rfl, rfl, rfl, rfl⟩

/-- C1 (counterexample): `record_feedback` performs no coercion of the
rating into [1,5] — submitting rating −3 for the stored record persists the
rating −3 itself, which lies outside [1,5]. -/
theorem c1_counterexample :
    ((recordFeedback oneRecordState 1 (-3) "" 0).itineraries.map fun i => i.rating) = [-3] ∧
    ¬(1 ≤ (-3 : Int) ∧ (-3 : Int) ≤ 5) := by
  exact ⟨rfl, by decide⟩

/-- C1 (amended): for every call `recordFeedback(id, rating, comments)` the
rating value stored on the matching itinerary record is the rating argument
itself, verbatim and unclamped, whatever integer it is. -/
theorem c1_rating_stored_verbatim (s : SysState) (i : Itinerary) (r : Int)
    (c : String) (pick : Nat)
    (hnd : (s.itineraries.map fun j => j.id).Nodup) (hmem : i ∈ s.itineraries) :
    ∃ y ∈ (recordFeedback s i.id r c pick).itineraries, y.id = i.id ∧ y.rating = r := by
  obtain ⟨y, hy, hid, _, hrat, _⟩ :=
    recordFeedback_exists_core s i.id r c pick (applyFeedback i r (sanitizeTextInput c 1000))
      (applyFeedback_mem_updateFirst s.itineraries i r (sanitizeTextInput c 1000) hnd hmem)
  exact ⟨y, hy, by simpa [applyFeedback] using hid, by simpa [applyFeedback] using hrat⟩

/-- C1 witness: the amended statement applied to the concrete one-record
state with the out-of-range rating −2. -/
theorem c1_witness :
    ∃ y ∈ (recordFeedback oneRecordState (sampleItinerary 1 "paris" 0 false false).id
        (-2) "" 0).itineraries,
      y.id = (sampleItinerary 1 "paris" 0 false false).id ∧ y.rating = -2 :=
  c1_rating_stored_verbatim oneRecordState (sampleItinerary 1 "paris" 0 false false)
    (-2) "" 0 (by decide) (by decide)

/-- C2: for every rating r in {1..5} and every stored record, after
`recordFeedback` on that record's id the persisted record is marked rated
and its quality score is `round(r*16 + min(20, len/1000), 2)` over the
stored text's length. -/
theorem c2_quality_score (s : SysState) (i : Itinerary) (r : Int) (c : String)
    (pick : Nat) (hnd : (s.itineraries.map fun j => j.id).Nodup)
    (hmem : i ∈ s.itineraries) (hr : 1 ≤ r ∧ r ≤ 5) :
    ∃ y ∈ (recordFeedback s i.id r c pick).itineraries,
      y.id = i.id ∧ y.rated = true ∧
      y.qualityScore = round2 ((r : ℚ) * 16 + min 20 ((i.fullItinerary.length : ℚ) / 1000)) := by
  obtain ⟨y, hy, hid, hrd, _, hq⟩ :=
    recordFeedback_exists_core s i.id r c pick (applyFeedback i r (sanitizeTextInput c 1000))
      (applyFeedback_mem_updateFirst s.itineraries i r (sanitizeTextInput c 1000) hnd hmem)
  refine ⟨y, hy, by simpa [applyFeedback] using hid, by simpa [applyFeedback] using hrd, ?_⟩
  rw [hq]
  simp [applyFeedback, calcQualityScore]

/-- C2 witness: the statement applied to the concrete one-record state at
rating 5. -/
theorem c2_witness :
    ∃ y ∈ (recordFeedback oneRecordState (sampleItinerary 1 "paris" 0 false false).id
        5 "" 0).itineraries,
      y.id = (sampleItinerary 1 "paris" 0 false false).id ∧ y.rated = true ∧
      y.qualityScore = round2 ((5 : ℚ) * 16 +
        min 20 (((sampleItinerary 1 "paris" 0 false false).fullItinerary.length : ℚ) / 1000)) :=
  c2_quality_score oneRecordState (sampleItinerary 1 "paris" 0 false false) 5 "" 0
    (by decide) (by decide) (by decide)

/-- C3: the flat-file write of `store_complete_itinerary` happens
unconditionally; the appended record carries the primary id when one was
produced and `length + 1` otherwise, and that id is what the call returns. -/
theorem c3_secondary_write_unconditional (itins : List Itinerary)
    (primaryId : Option Nat) (city : String) (tripDays : Nat) (budget : String)
    (interests travelStyle : List String) (includeFood includeTransport : Bool)
    (fullPromptContext fullItinerary : String) :
    ∃ e : Itinerary,
      (storeCompleteItinerary itins primaryId city tripDays budget interests travelStyle
          includeFood includeTransport fullPromptContext fullItinerary).1 = itins ++ [e] ∧
      e.id = (storeCompleteItinerary itins primaryId city tripDays budget interests travelStyle
          includeFood includeTransport fullPromptContext fullItinerary).2 ∧
      (storeCompleteItinerary itins primaryId city tripDays budget interests travelStyle
          includeFood includeTransport fullPromptContext fullItinerary).2 =
        primaryId.getD (itins.length + 1) := by
  refine ⟨_, rfl, rfl, ?_⟩
  cases primaryId <;> rfl

/-- C5 (code bug): `get_recent_itineraries` on the flat-file path evaluates
`list(reversed(itineraries))[-limit:]`, which keeps the OLDEST `limit`
records: on two stored records with limit 1 it returns the first-created
record, not the most recent one. -/
theorem c5_returns_oldest :
    getRecentItineraries
        [sampleItinerary 1 "paris" 0 false false, sampleItinerary 2 "tokyo" 0 false false] 1
      = [sampleItinerary 1 "paris" 0 false false] ∧
    sampleItinerary 1 "paris" 0 false false ≠ sampleItinerary 2 "tokyo" 0 false false := by
  exact ⟨rfl, by decide⟩

/-- C7 (counterexample): submitting feedback for an id no record carries can
still change itinerary records — the call below makes the feedback count a
multiple of 3, the triggered auto-train pass marks the high-rated record as
used for training. -/
theorem c7_counterexample :
    (99 ∉ threeRecordState.itineraries.map fun i => i.id) ∧
    ((recordFeedback threeRecordState 99 2 "" 0).itineraries.map fun i => i.usedForTraining)
      = [true, false, false] ∧
    (threeRecordState.itineraries.map fun i => i.usedForTraining) = [false, false, false] := by
  exact ⟨by decide, rfl, rfl⟩

/-- C7 (amended): `recordFeedback` is total, and when no stored record has
the given id the feedback fields of every record (id, rating, rated flag,
comments, quality score) are unchanged; when additionally the new feedback
count is not a multiple of 3 (so no auto-train pass runs), the record list
is unchanged entirely.  A triggered auto-train pass may still set the
training flags of high-rated records. -/
theorem c7_missing_id_noop (s : SysState) (itinId : Nat) (r : Int) (c : String)
    (pick : Nat) (h : itinId ∉ s.itineraries.map fun i => i.id) :
    ((recordFeedback s itinId r c pick).itineraries.map fun i =>
        (i.id, i.rating, i.rated, i.feedbackComments, i.qualityScore))
      = (s.itineraries.map fun i =>
        (i.id, i.rating, i.rated, i.feedbackComments, i.qualityScore)) ∧
    ((s.feedback.length + 1) % 3 ≠ 0 →
      (recordFeedback s itinId r c pick).itineraries = s.itineraries) := by
  rw [recordFeedback_eq, updateFirst_of_not_mem _ _ _ _ h]
  by_cases hmod : (s.feedback.length + 1) % 3 = 0
  · rw [if_pos hmod]
    refine ⟨?_, fun hc => absurd hmod hc⟩
    rcases autoTrain_itineraries_shape _ pick with h2 | ⟨k, h2⟩ <;> rw [h2] <;>
      simp [List.map_map, Function.comp]
  · rw [if_neg hmod]
    exact ⟨rfl, fun _ => rfl⟩

/-- C7 witness: the amended statement applied to the one-record state and
the absent id 99 (feedback count 1, so no auto-train pass runs). -/
theorem c7_witness :
    ((recordFeedback oneRecordState 99 2 "" 0).itineraries.map fun i =>
        (i.id, i.rating, i.rated, i.feedbackComments, i.qualityScore))
      = (oneRecordState.itineraries.map fun i =>
        (i.id, i.rating, i.rated, i.feedbackComments, i.qualityScore)) ∧
    ((oneRecordState.feedback.length + 1) % 3 ≠ 0 →
      (recordFeedback oneRecordState 99 2 "" 0).itineraries = oneRecordState.itineraries) :=
  c7_missing_id_noop oneRecordState 99 2 "" 0 (by decide)

/-- If an `_auto_train` call changed the patterns document at all, then at
least 3 records existed and at least one was high-rated, and both facts
still hold of the resulting record list. -/
lemma autoTrain_patterns_ne (s : SysState) (pick : Nat)
    (hne : (autoTrain s pick).patterns ≠ s.patterns) :
    3 ≤ (autoTrain s pick).itineraries.length ∧
    ∃ i ∈ (autoTrain s pick).itineraries, 4 ≤ i.rating := by
  have hbase : ¬ s.itineraries.length < 3 ∧ ∃ i ∈ s.itineraries, 4 ≤ i.rating := by
    unfold autoTrain at hne
    dsimp only at hne
    by_cases h3 : s.itineraries.length < 3
    · rw [if_pos h3] at hne
      exact absurd rfl hne
    rw [if_neg h3] at hne
    by_cases hq : (highQuality s.itineraries).isEmpty
    · rw [if_pos hq] at hne
      exact absurd rfl hne
    refine ⟨h3, ?_⟩
    rcases hl : highQuality s.itineraries with _ | ⟨a, as⟩
    · rw [hl] at hq
      exact absurd rfl hq
    have ha : a ∈ highQuality s.itineraries := by
      rw [hl]
      exact List.mem_cons_self _ _
    have := List.mem_filter.mp ha
    exact ⟨a, this.1, by simpa using this.2⟩
  constructor
  · rw [autoTrain_itineraries_length]
    omega
  · obtain ⟨i, hi, hr4⟩ := hbase.2
    rcases autoTrain_itineraries_shape s pick with h | ⟨k, h⟩ <;> rw [h]
    · exact ⟨i, hi, hr4⟩
    · exact ⟨markUsed k i, List.mem_map_of_mem _ hi, by simpa using hr4⟩

/-- C4: after any `recordFeedback` call, the patterns document changed only
if the new feedback count is a positive multiple of 3, at least 3 records
exist, and at least one record is high-rated (rating ≥ 4); in particular at
feedback counts 1, 2, 4 and 5 the document is never mutated by the feedback
path. -/
theorem c4_autotrain_trigger_conditions (s : SysState) (itinId : Nat) (r : Int)
    (c : String) (pick : Nat) :
    ((recordFeedback s itinId r c pick).patterns ≠ s.patterns →
      (recordFeedback s itinId r c pick).feedback.length % 3 = 0 ∧
      0 < (recordFeedback s itinId r c pick).feedback.length ∧
      3 ≤ (recordFeedback s itinId r c pick).itineraries.length ∧
      ∃ i ∈ (recordFeedback s itinId r c pick).itineraries, 4 ≤ i.rating) ∧
    ((recordFeedback s itinId r c pick).feedback.length = 1 ∨
        (recordFeedback s itinId r c pick).feedback.length = 2 ∨
        (recordFeedback s itinId r c pick).feedback.length = 4 ∨
        (recordFeedback s itinId r c pick).feedback.length = 5 →
      (recordFeedback s itinId r c pick).patterns = s.patterns) := by
  rw [recordFeedback_eq]
  by_cases hmod : (s.feedback.length + 1) % 3 = 0
  · rw [if_pos hmod]
    constructor
    · intro hne
      obtain ⟨hlen, hex⟩ := autoTrain_patterns_ne _ pick hne
      refine ⟨?_, ?_, hlen, hex⟩
      · rw [autoTrain_feedback]
        simpa using hmod
      · rw [autoTrain_feedback]
        simp
    · intro hvals
      rw [autoTrain_feedback] at hvals
      simp only [List.length_append, List.length_singleton] at hvals
      omega
  · rw [if_neg hmod]
    exact ⟨fun hne => absurd rfl hne, fun _ => rfl⟩

/-- C4 witness: the trigger theorem applied to the concrete three-record
state whose pending submission is the third, instantiated through its
no-mutation direction on a first submission (count 1). -/
theorem c4_witness :
    (recordFeedback oneRecordState 1 3 "" 0).patterns = oneRecordState.patterns :=
  (c4_autotrain_trigger_conditions oneRecordState 1 3 "" 0).2 (by decide)

section DictLemmas

variable {α : Type} [DecidableEq α]

/-- Bumping key `j` raises exactly `j`'s looked-up count by one. -/
lemma lookupCount_bumpKey (m : List (α × Nat)) (j k : α) :
    lookupCount (bumpKey m j) k =
      if k = j then lookupCount m k + 1 else lookupCount m k := by
  induction m with
  | nil =>
    by_cases hk : k = j
    · rw [hk]
      simp [bumpKey, lookupCount]
    · have hjk : ¬ j = k := fun h => hk h.symm
      simp [bumpKey, lookupCount, hk, hjk]
  | cons p ps ih =>
    simp only [bumpKey]
    by_cases hp : p.1 = j
    · simp only [if_pos hp, lookupCount]
      by_cases hk : p.1 = k
      · have h1 : k = j := hk.symm.trans hp
        simp only [if_pos hk, if_pos h1]
      · have h1 : ¬ k = j := fun h => hk (hp.trans h.symm)
        simp only [if_neg hk, if_neg h1]
    · simp only [if_neg hp, lookupCount]
      by_cases hk : p.1 = k
      · have h1 : ¬ k = j := fun h => hp (hk.trans h)
        simp only [if_pos hk, if_neg h1]
      · simp only [if_neg hk, ih]

/-- Folding the dict-bump over a key list adds each key's multiplicity to
its looked-up count. -/
lemma lookupCount_foldl_bumpKey (xs : List α) (m : List (α × Nat)) (k : α) :
    lookupCount (xs.foldl bumpKey m) k = lookupCount m k + xs.count k := by
  induction xs generalizing m with
  | nil => simp
  | cons x xs ih =>
    rw [List.foldl_cons, ih, lookupCount_bumpKey, List.count_cons]
    by_cases hk : k = x
    · simp only [if_pos hk, beq_iff_eq, hk]
      simp
      omega
    · simp only [if_neg hk, beq_iff_eq, hk]
      simp
      exact fun h => hk h.symm

/-- The keys after a bump are the old keys, extended by the bumped key when
it was absent. -/
lemma mem_keys_bumpKey (m : List (α × Nat)) (j k : α) :
    k ∈ (bumpKey m j).map Prod.fst ↔ k ∈ m.map Prod.fst ∨ k = j := by
  induction m with
  | nil => simp [bumpKey]
  | cons p ps ih =>
    by_cases hp : p.1 = j
    · simp only [bumpKey, if_pos hp, List.map_cons, List.mem_cons]
      rw [hp]
      tauto
    · simp only [bumpKey, if_neg hp, List.map_cons, List.mem_cons, ih]
      tauto

/-- Bumping preserves distinctness of the dict's keys. -/
lemma keys_nodup_bumpKey (m : List (α × Nat)) (j : α)
    (h : (m.map Prod.fst).Nodup) : ((bumpKey m j).map Prod.fst).Nodup := by
  induction m with
  | nil => simp [bumpKey]
  | cons p ps ih =>
    simp only [List.map_cons, List.nodup_cons] at h
    by_cases hp : p.1 = j
    · simp only [bumpKey, if_pos hp, List.map_cons, List.nodup_cons]
      exact ⟨h.1, h.2⟩
    · simp only [bumpKey, if_neg hp, List.map_cons, List.nodup_cons]
      refine ⟨?_, ih h.2⟩
      rw [mem_keys_bumpKey]
      push_neg
      exact ⟨h.1, hp⟩

/-- A counting dict built from scratch has distinct keys. -/
lemma keys_nodup_foldl_bumpKey (xs : List α) (m : List (α × Nat))
    (h : (m.map Prod.fst).Nodup) :
    ((xs.foldl bumpKey m).map Prod.fst).Nodup := by
  induction xs generalizing m with
  | nil => exact h
  | cons x xs ih => exact ih _ (keys_nodup_bumpKey m x h)

/-- The keys of a fold of bumps are the initial keys plus the bumped ones. -/
lemma mem_keys_foldl_bumpKey (xs : List α) (m : List (α × Nat)) (k : α) :
    k ∈ (xs.foldl bumpKey m).map Prod.fst ↔ k ∈ m.map Prod.fst ∨ k ∈ xs := by
  induction xs generalizing m with
  | nil => simp
  | cons x xs ih =>
    rw [List.foldl_cons, ih, mem_keys_bumpKey]
    simp
    tauto

/-- In a dict with distinct keys, a member's value is its looked-up value. -/
lemma value_eq_lookupCount (m : List (α × Nat)) (k : α) (n : Nat)
    (hnd : (m.map Prod.fst).Nodup) (hm : (k, n) ∈ m) :
    n = lookupCount m k := by
  induction m with
  | nil => cases hm
  | cons p ps ih =>
    simp only [List.map_cons, List.nodup_cons] at hnd
    rcases List.mem_cons.mp hm with h | h
    · rw [← h] at hnd ⊢
      simp [lookupCount]
    · have hk : p.1 ≠ k := by
        intro he
        exact hnd.1 (he ▸ List.mem_map_of_mem Prod.fst h)
      simp [lookupCount, hk, ih hnd.2 h]

/-- Membership in a from-scratch counting dict: the key occurs in the list
and the value is its multiplicity. -/
lemma mem_countDict (xs : List α) (k : α) (n : Nat)
    (hm : (k, n) ∈ countDict xs) : k ∈ xs ∧ n = xs.count k := by
  refine ⟨?_, ?_⟩
  · have := List.mem_map_of_mem Prod.fst hm
    rcases (mem_keys_foldl_bumpKey xs [] k).mp this with h | h
    · simp at h
    · exact h
  · have hv := value_eq_lookupCount _ k n
      (keys_nodup_foldl_bumpKey xs [] (by simp)) hm
    rw [hv]
    show lookupCount (xs.foldl bumpKey []) k = xs.count k
    rw [lookupCount_foldl_bumpKey]
    simp [lookupCount]

end DictLemmas

/-- High-rated selection commutes with the marking pass: marking changes no
rating, so the selected subset is the marked image of the original one. -/
lemma highQuality_map_markUsed (itins : List Itinerary) (k : Nat) :
    highQuality (itins.map (markUsed k)) = (highQuality itins).map (markUsed k) := by
  unfold highQuality
  rw [List.filter_map]
  congr 1
  apply List.filter_congr
  intro i _
  simp [Function.comp]

/-- The titled destination list of the high-rated subset is invariant under
`_auto_train` (early exits change nothing; the marking pass changes neither
ratings nor destinations). -/
lemma autoTrain_highQuality_cities (s : SysState) (pick : Nat) :
    (highQuality (autoTrain s pick).itineraries).map (fun i => pyTitle i.city) =
      (highQuality s.itineraries).map fun i => pyTitle i.city := by
  rcases autoTrain_itineraries_shape s pick with h | ⟨k, h⟩ <;> rw [h]
  rw [highQuality_map_markUsed, List.map_map]
  simp [Function.comp]

/-- When the guards pass, `_auto_train` folds the destination bump over the
high-rated subset. -/
lemma autoTrain_highRatedCities (s : SysState) (pick : Nat)
    (h3 : 3 ≤ s.itineraries.length) (hq : highQuality s.itineraries ≠ []) :
    (autoTrain s pick).patterns.highRatedCities =
      (highQuality s.itineraries).foldl (fun m i => bumpKey m (pyTitle i.city))
        s.patterns.highRatedCities := by
  unfold autoTrain
  dsimp only
  rw [if_neg (by omega), if_neg (by simpa [List.isEmpty_iff] using hq)]

/-- One guarded `_auto_train` pass adds each destination's high-rated
multiplicity to its count. -/
lemma autoTrain_lookup_highRatedCities (s : SysState) (pick : Nat) (c : String)
    (h3 : 3 ≤ s.itineraries.length) (hq : highQuality s.itineraries ≠ []) :
    lookupCount (autoTrain s pick).patterns.highRatedCities c =
      lookupCount s.patterns.highRatedCities c +
        ((highQuality s.itineraries).map fun i => pyTitle i.city).count c := by
  rw [autoTrain_highRatedCities s pick h3 hq,
    ← List.foldl_map (fun i : Itinerary => pyTitle i.city) bumpKey
      (highQuality s.itineraries) s.patterns.highRatedCities]
  exact lookupCount_foldl_bumpKey _ _ _

/-- C10: every auto-train pass increments the high-rated-cities count of a
destination once per high-rated record carrying it, regardless of the
`used_for_training` flag: `n` passes over a record set whose high-rated
subset mentions the destination `k` times raise the count by `n * k`. -/
theorem c10_high_rated_counts_accumulate (s : SysState) (picks : List Nat)
    (c : String) (h3 : 3 ≤ s.itineraries.length)
    (hq : highQuality s.itineraries ≠ []) :
    lookupCount (picks.foldl autoTrain s).patterns.highRatedCities c =
      lookupCount s.patterns.highRatedCities c +
        picks.length *
          (((highQuality s.itineraries).map fun i => pyTitle i.city).count c) := by
  induction picks generalizing s with
  | nil => simp
  | cons p ps ih =>
    rw [List.foldl_cons]
    have hlen : 3 ≤ (autoTrain s p).itineraries.length := by
      rw [autoTrain_itineraries_length]
      exact h3
    have hq2 : highQuality (autoTrain s p).itineraries ≠ [] := by
      intro hnil
      have := autoTrain_highQuality_cities s p
      rw [hnil] at this
      rcases hql : highQuality s.itineraries with _ | ⟨a, as⟩
      · exact hq hql
      · rw [hql] at this
        simp at this
    rw [ih (autoTrain s p) hlen hq2, autoTrain_highQuality_cities,
      autoTrain_lookup_highRatedCities s p c h3 hq]
    simp [List.length_cons]
    ring

/-- C10 witness: two passes over the three-record state (one high-rated
Tokyo record) raise Tokyo's count by 2·1. -/
theorem c10_witness :
    lookupCount ([0, 1].foldl autoTrain threeRecordState).patterns.highRatedCities "Tokyo" =
      lookupCount threeRecordState.patterns.highRatedCities "Tokyo" +
        [0, 1].length *
          (((highQuality threeRecordState.itineraries).map fun i => pyTitle i.city).count "Tokyo") :=
  c10_high_rated_counts_accumulate threeRecordState [0, 1] "Tokyo" (by decide) (by decide)

/-- The last-`n` truncation never yields more than `n` elements. -/
lemma takeLast_length_le {β : Type} (n : Nat) (l : List β) :
    (takeLast n l).length ≤ n := by
  unfold takeLast
  rw [List.length_drop]
  omega

/-- The last-`n` truncation of a duplicate-free list is duplicate-free. -/
lemma takeLast_nodup {β : Type} (n : Nat) (l : List β) (h : l.Nodup) :
    (takeLast n l).Nodup :=
  (List.drop_sublist _ _).nodup h

/-- One insight-list step preserves distinctness and the bound 15, and
either leaves the list alone (candidate already present) or appends the
absent candidate before truncating to the last 15. -/
lemma addInsight_spec (l : List String) (x : String) (hnd : l.Nodup)
    (hlen : l.length ≤ 15) :
    (addInsight l x).Nodup ∧ (addInsight l x).length ≤ 15 ∧
      (addInsight l x = l ∨ (x ∉ l ∧ addInsight l x = takeLast 15 (l ++ [x]))) := by
  unfold addInsight
  by_cases hx : x ∈ l
  · rw [if_pos hx]
    exact ⟨hnd, hlen, Or.inl rfl⟩
  · rw [if_neg hx]
    have hnd2 : (l ++ [x]).Nodup := by
      simp [List.nodup_append, hnd, hx]
    exact ⟨takeLast_nodup _ _ hnd2, takeLast_length_le _ _, Or.inr ⟨hx, rfl⟩⟩

/-- The insight list after one `_auto_train` call: distinctness and the
bound 15 are preserved, and the list either stays put or gains exactly the
absent chosen candidate (truncated to the last 15). -/
lemma autoTrain_insights (s : SysState) (pick : Nat)
    (hnd : s.patterns.qualityImprovementInsights.Nodup)
    (hlen : s.patterns.qualityImprovementInsights.length ≤ 15) :
    (autoTrain s pick).patterns.qualityImprovementInsights.Nodup ∧
    (autoTrain s pick).patterns.qualityImprovementInsights.length ≤ 15 ∧
    ((autoTrain s pick).patterns.qualityImprovementInsights =
        s.patterns.qualityImprovementInsights ∨
      (generateTrainingInsight pick ∉ s.patterns.qualityImprovementInsights ∧
        (autoTrain s pick).patterns.qualityImprovementInsights =
          takeLast 15 (s.patterns.qualityImprovementInsights ++
            [generateTrainingInsight pick]))) := by
  unfold autoTrain
  dsimp only
  split
  · exact ⟨hnd, hlen, Or.inl rfl⟩
  split
  · exact ⟨hnd, hlen, Or.inl rfl⟩
  dsimp only
  split
  · exact addInsight_spec _ _ hnd hlen
  · exact ⟨hnd, hlen, Or.inl rfl⟩

/-- Iterated `_auto_train` passes keep the insight list duplicate-free and
within the bound 15. -/
lemma foldl_autoTrain_insights : ∀ (picks : List Nat) (s : SysState),
    s.patterns.qualityImprovementInsights.Nodup →
    s.patterns.qualityImprovementInsights.length ≤ 15 →
    (picks.foldl autoTrain s).patterns.qualityImprovementInsights.Nodup ∧
    (picks.foldl autoTrain s).patterns.qualityImprovementInsights.length ≤ 15
  | [], _, hnd, hlen => ⟨hnd, hlen⟩
  | q :: qs, s, hnd, hlen => by
    rw [List.foldl_cons]
    obtain ⟨h1, h2, _⟩ := autoTrain_insights s q hnd hlen
    exact foldl_autoTrain_insights qs _ h1 h2

/-- C6: starting from a duplicate-free insight list of length at most 15,
every auto-train pass appends at most one new string, only when that exact
string is absent, keeps the list duplicate-free, and keeps its length at
most 15 — and any number of passes keeps the list duplicate-free and within
the bound. -/
theorem c6_insights_bounded_nodup (s : SysState) (pick : Nat) (picks : List Nat)
    (hnd : s.patterns.qualityImprovementInsights.Nodup)
    (hlen : s.patterns.qualityImprovementInsights.length ≤ 15) :
    ((autoTrain s pick).patterns.qualityImprovementInsights.Nodup ∧
      (autoTrain s pick).patterns.qualityImprovementInsights.length ≤ 15 ∧
      ((autoTrain s pick).patterns.qualityImprovementInsights =
          s.patterns.qualityImprovementInsights ∨
        (generateTrainingInsight pick ∉ s.patterns.qualityImprovementInsights ∧
          (autoTrain s pick).patterns.qualityImprovementInsights =
            takeLast 15 (s.patterns.qualityImprovementInsights ++
              [generateTrainingInsight pick])))) ∧
    ((picks.foldl autoTrain s).patterns.qualityImprovementInsights.Nodup ∧
      (picks.foldl autoTrain s).patterns.qualityImprovementInsights.length ≤ 15) :=
  ⟨autoTrain_insights s pick hnd hlen, foldl_autoTrain_insights picks s hnd hlen⟩

/-- C6 witness: twenty passes over the qualifying three-record state keep
the insight list duplicate-free and within the bound 15. -/
theorem c6_witness :
    (((autoTrain threeRecordState 0).patterns.qualityImprovementInsights.Nodup ∧
      (autoTrain threeRecordState 0).patterns.qualityImprovementInsights.length ≤ 15 ∧
      ((autoTrain threeRecordState 0).patterns.qualityImprovementInsights =
          threeRecordState.patterns.qualityImprovementInsights ∨
        (generateTrainingInsight 0 ∉ threeRecordState.patterns.qualityImprovementInsights ∧
          (autoTrain threeRecordState 0).patterns.qualityImprovementInsights =
            takeLast 15 (threeRecordState.patterns.qualityImprovementInsights ++
              [generateTrainingInsight 0])))) ∧
    (([0, 1, 2, 3, 4, 5, 6, 7, 8, 9, 10, 11, 12, 13, 14, 15, 16, 17, 18,
        19].foldl autoTrain threeRecordState).patterns.qualityImprovementInsights.Nodup ∧
      ([0, 1, 2, 3, 4, 5, 6, 7, 8, 9, 10, 11, 12, 13, 14, 15, 16, 17, 18,
        19].foldl autoTrain threeRecordState).patterns.qualityImprovementInsights.length ≤ 15)) :=
  c6_insights_bounded_nodup threeRecordState 0
    [0, 1, 2, 3, 4, 5, 6, 7, 8, 9, 10, 11, 12, 13, 14, 15, 16, 17, 18, 19]
    (by decide) (by decide)

/-- Inserting a pair into the descending sort passes only strictly larger
counts, so filtering by an exact count commutes with the insertion: the
inserted pair lands after every equal-count pair already present. -/
lemma filter_orderedInsert_countEq (c : Nat) (x : String × Nat)
    (l : List (String × Nat)) :
    (List.orderedInsert countGE x l).filter (fun p => p.2 == c) =
      if x.2 = c then x :: l.filter (fun p => p.2 == c)
      else l.filter (fun p => p.2 == c) := by
  induction l with
  | nil =>
    by_cases hx : x.2 = c <;> simp [List.orderedInsert, hx]
  | cons y ys ih =>
    by_cases hr : countGE x y
    · rw [List.orderedInsert, if_pos hr]
      by_cases hx : x.2 = c <;> simp [List.filter_cons, hx]
    · rw [List.orderedInsert, if_neg hr]
      have hyx : x.2 < y.2 := Nat.lt_of_not_le hr
      by_cases hx : x.2 = c
      · have hy : ¬ y.2 = c := by omega
        simp [List.filter_cons, hx, hy, ih]
      · by_cases hy : y.2 = c <;> simp [List.filter_cons, hx, hy, ih]

/-- Filtering by an exact count commutes with the stable descending sort:
equal-count pairs keep their original relative order. -/
lemma filter_sortCountsDesc_countEq (c : Nat) (l : List (String × Nat)) :
    (sortCountsDesc l).filter (fun p => p.2 == c) =
      l.filter (fun p => p.2 == c) := by
  unfold sortCountsDesc
  induction l with
  | nil => rfl
  | cons x xs ih =>
    rw [List.insertionSort, filter_orderedInsert_countEq]
    by_cases hx : x.2 = c <;> simp [List.filter_cons, hx, ih]

/-- C9: the `top_cities` list of `get_statistics` has at most 5 entries,
each entry's count is the destination's frequency over all records, the
list is ordered by non-increasing frequency, and two equal-frequency
entries appear in the order their destinations were first encountered
during the counting scan (the insertion order of the counting dict). -/
theorem c9_top_cities (s : SysState) :
    (getStatistics s).topCities.length ≤ 5 ∧
    (getStatistics s).topCities.Pairwise (fun a b => b.2 ≤ a.2) ∧
    (∀ p ∈ (getStatistics s).topCities,
      p.2 = (s.itineraries.filter fun i => pyTitle i.city = p.1).length) ∧
    (∀ p q : String × Nat, p.2 = q.2 →
      [p, q].Sublist (getStatistics s).topCities →
      [p, q].Sublist (countDict (s.itineraries.map fun i => pyTitle i.city))) := by
  by_cases hemp : s.itineraries.isEmpty
  · have hnil : s.itineraries = [] := List.isEmpty_iff.mp hemp
    unfold getStatistics
    rw [if_pos hemp]
    refine ⟨by simp, by simp, by simp, ?_⟩
    intro p q _ hsub
    have := hsub.length_le
    simp at this
  · unfold getStatistics
    rw [if_neg hemp]
    dsimp only
    refine ⟨?_, ?_, ?_, ?_⟩
    · exact List.length_take_le _ _
    · exact List.Pairwise.sublist (List.take_sublist _ _)
        (List.sorted_insertionSort countGE _)
    · rintro ⟨c1, n1⟩ hp
      have hmem : (c1, n1) ∈
          countDict (s.itineraries.map fun i => pyTitle i.city) := by
        have h1 := List.mem_of_mem_take hp
        exact (List.mem_insertionSort countGE).mp h1
      obtain ⟨_, hcount⟩ := mem_countDict _ _ _ hmem
      rw [hcount]
      rw [List.count_eq_countP, List.countP_map, List.countP_eq_length_filter]
      congr 1
    · intro p q hpq hsub
      have hsub2 : [p, q].Sublist
          (sortCountsDesc (countDict (s.itineraries.map fun i => pyTitle i.city))) :=
        hsub.trans (List.take_sublist _ _)
      have hfil := hsub2.filter (fun a => a.2 == p.2)
      have hself : [p, q].filter (fun a => a.2 == p.2) = [p, q] := by
        simp [List.filter_cons, hpq]
      rw [hself, filter_sortCountsDesc_countEq] at hfil
      exact hfil.trans (List.filter_sublist _)

/-- C8: when no stored record is rated (every rating is 0), the average
rating `get_statistics` reports is 0; and the rating histogram maps only
rating values of rated records to their counts — an entry `(r, n)` means
some rated record carries rating `r` and exactly `n` rated records do. -/
theorem c8_average_and_histogram (s : SysState) :
    ((∀ i ∈ s.itineraries, i.rating = 0) → (getStatistics s).averageRating = 0) ∧
    (∀ r n, (r, n) ∈ (getStatistics s).ratingDistribution →
      (∃ i ∈ s.itineraries, i.rated = true ∧ 0 < i.rating ∧ i.rating = r) ∧
      n = (s.itineraries.filter fun i =>
        i.rated = true ∧ 0 < i.rating ∧ i.rating = r).length) := by
  by_cases hemp : s.itineraries.isEmpty
  · unfold getStatistics
    rw [if_pos hemp]
    exact ⟨fun _ => rfl, fun r n hmem => absurd hmem (List.not_mem_nil _)⟩
  · unfold getStatistics
    rw [if_neg hemp]
    dsimp only
    constructor
    · intro hall
      have hrated : s.itineraries.filter
          (fun i => i.rated = true ∧ 0 < i.rating) = [] := by
        rw [List.filter_eq_nil_iff]
        intro i hi
        simp [hall i hi]
      rw [hrated]
      simp
    · intro r n hmem
      obtain ⟨hr, hn⟩ := mem_countDict _ _ _ hmem
      constructor
      · obtain ⟨i, hi, hir⟩ := List.mem_map.mp hr
        have hi2 := List.mem_filter.mp hi
        have hi3 := List.mem_filter.mp hi2.1
        refine ⟨i, hi3.1, ?_, ?_, hir⟩
        · have := hi3.2
          simp at this
          exact this.1
        · have := hi3.2
          simp at this
          omega
      · rw [hn, List.count_eq_countP, List.countP_map, List.countP_filter,
          List.countP_filter, ← List.countP_eq_length_filter]
        apply List.countP_congr
        intro i _
        simp only [Function.comp, Bool.and_eq_true, decide_eq_true_eq, beq_iff_eq,
          bne_iff_ne, ne_eq]
        constructor
        · rintro ⟨⟨h1, h2⟩, h3, h4⟩
          exact ⟨h3, h4, h1⟩
        · rintro ⟨h1, h2, h3⟩
          exact ⟨⟨h3, by omega⟩, h1, h2⟩

end TravelPlanner
